import Mathlib

/-!
Shallow embedding of the snake-game core (`src/lib/snake_lib.py` and the
tick of `src/snake_game/game_logic.py`).

Conventions of the embedding:
- Python `int` is `Int`; list indices/lengths are `Nat`.
- `Snake` mutation becomes explicit state passing: each Python method that
  mutates `self` returns the new `Snake` together with its Python return
  value.
- Python exceptions (`ValueError` on an invalid direction, `IndexError` on
  reading the head of an empty body) become `Except.error` with the message
  text; a normal return is `Except.ok`.
- `Direction` is a Python `StrEnum`, so the untyped `direction` argument of
  `Snake.move` is compared against the member string values; the embedding
  takes the requested direction as a `String` and compares it with the
  literals "UP", "DOWN", "LEFT", "RIGHT", exactly as `==` on a `StrEnum`
  member does.
- `random.randint(lo, hi)` draws an integer from the inclusive range
  `[lo, hi]`; the embedding threads the drawn values in as parameters and
  `valid_randint` states the range the library guarantees.
-/

namespace SnakeLib

def GAME_WIDTH : Int := 40

def GAME_HEIGHT : Int := 40

/-- Direction enum of `snake_lib.py` (a `StrEnum` with the four members). -/
inductive Direction
  | UP
  | DOWN
  | LEFT
  | RIGHT
deriving DecidableEq, Repr

/-- String value of a `Direction` member (`StrEnum` members equal their values). -/
def Direction.toString : Direction → String
  | .UP => "UP"
  | .DOWN => "DOWN"
  | .LEFT => "LEFT"
  | .RIGHT => "RIGHT"

/-- The direction exactly opposite to a given one (UP-DOWN, LEFT-RIGHT). -/
def Direction.opposite : Direction → Direction
  | .UP => .DOWN
  | .DOWN => .UP
  | .LEFT => .RIGHT
  | .RIGHT => .LEFT

/-- One-cell offset of a coordinate in a direction, as computed inline in
`Snake.move` and `Snake.continue_moving`: UP is y-1, DOWN is y+1,
LEFT is x-1, RIGHT is x+1. -/
def Direction.step : Direction → Int × Int → Int × Int
  | .UP, (x, y) => (x, y - 1)
  | .DOWN, (x, y) => (x, y + 1)
  | .LEFT, (x, y) => (x - 1, y)
  | .RIGHT, (x, y) => (x + 1, y)

/-- `MoveFailure` enum of `snake_lib.py`. -/
inductive MoveFailure
  | WALL_HIT
  | SNAKE_HIT
deriving DecidableEq, Repr

/-- Return type of `Snake.move` / `Snake.continue_moving`: the Python code
returns either a `MoveResult(direction, new_head)` or a `MoveFailure`
member; the embedding tags the two cases. -/
inductive MoveOutcome
  | Moved (direction : Direction) (new_head : Int × Int)
  | Blocked (reason : MoveFailure)
deriving DecidableEq, Repr

/-- State of a `Snake` object: `_length` the target length, `_positions`
the body cells head first, `_direction` the current facing. -/
structure Snake where
  _length : Nat
  _positions : List (Int × Int)
  _direction : Direction
deriving DecidableEq, Repr

/-- `Snake.__init__` with explicit `initial_positions`
(`_length = len(initial_positions)`, facing RIGHT). -/
def Snake.init (initial_positions : List (Int × Int)) : Snake :=
  { _length := initial_positions.length
    _positions := initial_positions
    _direction := Direction.RIGHT }

/-- `Snake.__init__()` with the default body `[(1, 1), (0, 0)]`. -/
def Snake.default : Snake :=
  Snake.init [(1, 1), (0, 0)]

/-- `_wall_collision(position)`: true iff the coordinate lies outside
`[0, GAME_WIDTH) x [0, GAME_HEIGHT)`. -/
def _wall_collision (position : Int × Int) : Bool :=
  position.1 < 0 || position.1 ≥ GAME_WIDTH || position.2 < 0 || position.2 ≥ GAME_HEIGHT

/-- `Snake._check_collisions(new_head)`: wall check first, then membership
of the candidate in `self._positions[1:]` (the body without the current
head). -/
def Snake._check_collisions (s : Snake) (new_head : Int × Int) : Option MoveFailure :=
  if _wall_collision new_head then
    some MoveFailure.WALL_HIT
  else if new_head ∈ s._positions.drop 1 then
    some MoveFailure.SNAKE_HIT
  else
    none

/-- `Snake._move_head(new_head)`: on a collision return it and leave the
body alone; otherwise insert the new head at index 0 and pop the last cell
when the body is now longer than `_length`. -/
def Snake._move_head (s : Snake) (new_head : Int × Int) : Snake × Option MoveFailure :=
  match s._check_collisions new_head with
  | some collision => (s, some collision)
  | none =>
    let ps := new_head :: s._positions
    let ps := if ps.length > s._length then ps.dropLast else ps
    ({ s with _positions := ps }, none)

/-- `Snake.continue_moving()`: advance one cell in the current facing;
reading `self._positions[0]` on an empty body raises `IndexError`. -/
def Snake.continue_moving (s : Snake) : Except String (Snake × MoveOutcome) :=
  match s._positions with
  | [] => Except.error "list index out of range"
  | (current_x, current_y) :: _ =>
    let new_head :=
      match s._direction with
      | Direction.UP => (current_x, current_y - 1)
      | Direction.DOWN => (current_x, current_y + 1)
      | Direction.LEFT => (current_x - 1, current_y)
      | Direction.RIGHT => (current_x + 1, current_y)
    match s._move_head new_head with
    | (s2, some collision) => Except.ok (s2, MoveOutcome.Blocked collision)
    | (s2, none) => Except.ok (s2, MoveOutcome.Moved s2._direction new_head)

/-- `Snake.move(direction)`: turn to the requested direction unless it is
opposite to the current facing, updating `self._direction` before the
candidate head is computed; a rejected turn falls through to
`continue_moving()`; an unrecognised direction value raises `ValueError`.
The body is mutated only through `_move_head`. -/
def Snake.move (s : Snake) (direction : String) : Except String (Snake × MoveOutcome) :=
  match s._positions with
  | [] => Except.error "list index out of range"
  | (current_x, current_y) :: _ =>
    let branch : Except String (Snake × Option (Int × Int)) :=
      if direction = "UP" then
        if s._direction ≠ Direction.DOWN then
          Except.ok ({ s with _direction := Direction.UP }, some (current_x, current_y - 1))
        else
          Except.ok (s, none)
      else if direction = "DOWN" then
        if s._direction ≠ Direction.UP then
          Except.ok ({ s with _direction := Direction.DOWN }, some (current_x, current_y + 1))
        else
          Except.ok (s, none)
      else if direction = "LEFT" then
        if s._direction ≠ Direction.RIGHT then
          Except.ok ({ s with _direction := Direction.LEFT }, some (current_x - 1, current_y))
        else
          Except.ok (s, none)
      else if direction = "RIGHT" then
        if s._direction ≠ Direction.LEFT then
          Except.ok ({ s with _direction := Direction.RIGHT }, some (current_x + 1, current_y))
        else
          Except.ok (s, none)
      else
        Except.error ("Invalid direction: " ++ direction)
    match branch with
    | Except.error e => Except.error e
    | Except.ok (s1, none) => s1.continue_moving
    | Except.ok (s1, some new_head) =>
      match s1._move_head new_head with
      | (s2, some collision) => Except.ok (s2, MoveOutcome.Blocked collision)
      | (s2, none) => Except.ok (s2, MoveOutcome.Moved s2._direction new_head)

/-- `Snake.grow()`: increment the target length only. -/
def Snake.grow (s : Snake) : Snake :=
  { s with _length := s._length + 1 }

/-- `Snake.get_positions()`. -/
def Snake.get_positions (s : Snake) : List (Int × Int) :=
  s._positions

/-- `Snake.get_head()`: `self._positions[0]`, `none` standing for the
`IndexError` on an empty body. -/
def Snake.get_head (s : Snake) : Option (Int × Int) :=
  s._positions.head?

/-- `random.randint lo hi` returns some integer of the inclusive range
`[lo, hi]`: the proposition a drawn value satisfies. -/
def valid_randint (lo hi r : Int) : Prop :=
  lo ≤ r ∧ r ≤ hi

/-- `_get_food_position()` with the two `random.randint` draws
(`randint(0, GAME_WIDTH - 1)` and `randint(0, GAME_HEIGHT - 1)`) threaded
in as parameters; the function pairs them up. -/
def _get_food_position (rx ry : Int) : Int × Int :=
  (rx, ry)

/-- State of a `Food` object. -/
structure Food where
  _position : Int × Int
deriving DecidableEq, Repr

/-- `Food.__init__`, given the two random draws. -/
def Food.init (rx ry : Int) : Food :=
  { _position := _get_food_position rx ry }

/-- `Food.get_position()`. -/
def Food.get_position (f : Food) : Int × Int :=
  f._position

/-- One caller-visible operation on a `Snake`, for stating invariants over
operation sequences. -/
inductive Op
  | move (direction : String)
  | continue_moving
  | grow
deriving DecidableEq, Repr

/-- Number of `grow` operations in a sequence. -/
def num_grows : List Op → Nat
  | [] => 0
  | op :: ops => (if op = Op.grow then 1 else 0) + num_grows ops

/-- State reached after one operation: a raised exception leaves the snake
unchanged (both Python raises happen before any mutation of `self`). -/
def Snake.apply (s : Snake) (op : Op) : Snake :=
  match op with
  | Op.move d =>
    match s.move d with
    | Except.ok (s2, _) => s2
    | Except.error _ => s
  | Op.continue_moving =>
    match s.continue_moving with
    | Except.ok (s2, _) => s2
    | Except.error _ => s
  | Op.grow => s.grow

/-- State reached after a sequence of operations. -/
def Snake.run (s : Snake) (ops : List Op) : Snake :=
  ops.foldl Snake.apply s

end SnakeLib

namespace SnakeGame

open SnakeLib

/-- State the game loop of `game_logic._run_game_iteration` carries between
ticks: the snake and the current food. -/
structure GameState where
  snake : Snake
  food : Food
deriving DecidableEq, Repr

/-- Result of one iteration of the while-loop body: keep running with a new
state, leave the loop on a collision, or propagate a raised exception. -/
inductive TickResult
  | Running (g : GameState)
  | GameOver (reason : MoveFailure) (g : GameState)
  | Crashed (e : String)
deriving DecidableEq, Repr

/-- The input dispatch of the loop body of `_run_game_iteration`:
`snake.move(input)` when a direction was read this tick, else
`snake.continue_moving()`. -/
def move_or_continue (s : Snake) (input : Option String) :
    Except String (Snake × MoveOutcome) :=
  match input with
  | some d => s.move d
  | none => s.continue_moving

/-- One iteration of the loop body of `_run_game_iteration`: move with the
input direction if there is one, else continue; a `MoveFailure` ends the
round; otherwise if the head now equals the food position, grow the snake
and construct a fresh `Food` (its two random draws passed as `rx`, `ry`). -/
def tick (g : GameState) (input : Option String) (rx ry : Int) : TickResult :=
  let result := move_or_continue g.snake input
  match result with
  | Except.error e => TickResult.Crashed e
  | Except.ok (s2, MoveOutcome.Blocked reason) => TickResult.GameOver reason { g with snake := s2 }
  | Except.ok (s2, MoveOutcome.Moved _ _) =>
    if s2.get_head = some g.food.get_position then
      TickResult.Running { snake := s2.grow, food := Food.init rx ry }
    else
      TickResult.Running { g with snake := s2 }

end SnakeGame

namespace SnakeLib

/-! ### Helper lemmas -/

/-- A collision reported by `_move_head` leaves the snake state untouched. -/
lemma _move_head_collision_frame (s : Snake) (nh : Int × Int) (s2 : Snake) (c : MoveFailure)
    (h : s._move_head nh = (s2, some c)) : s2 = s := by
  unfold Snake._move_head at h
  split at h
  · exact (Prod.mk.injEq _ _ _ _ ▸ h).1.symm
  · simp at h

/-- `_move_head` never changes the target length. -/
lemma _move_head_length (s : Snake) (nh : Int × Int) :
    ((s._move_head nh).1)._length = s._length := by
  unfold Snake._move_head
  split
  · rfl
  · rfl

/-- A passing collision check means the candidate is on the grid and not in
`_positions[1:]`. -/
lemma _check_collisions_none (s : Snake) (nh : Int × Int)
    (h : s._check_collisions nh = none) :
    _wall_collision nh = false ∧ nh ∉ s._positions.drop 1 := by
  unfold Snake._check_collisions at h
  by_cases hw : _wall_collision nh
  · simp [hw] at h
  · by_cases hmem : nh ∈ s._positions.drop 1
    · rw [List.drop_one] at hmem
      simp [hw, hmem] at h
    · exact ⟨by simpa using hw, hmem⟩

lemma continue_moving_nil (len : Nat) (dir : Direction) :
    (Snake.mk len [] dir).continue_moving = Except.error "list index out of range" := rfl

lemma continue_moving_cons (len : Nat) (x y : Int) (rest : List (Int × Int)) (dir : Direction) :
    (Snake.mk len ((x, y) :: rest) dir).continue_moving =
      match (Snake.mk len ((x, y) :: rest) dir)._move_head (dir.step (x, y)) with
      | (s2, some c) => Except.ok (s2, MoveOutcome.Blocked c)
      | (s2, none) => Except.ok (s2, MoveOutcome.Moved s2._direction (dir.step (x, y))) := by
  cases dir <;> rfl

/-- Successful return of `continue_moving`: the body was nonempty, the new
state is the `_move_head` result on the head offset one cell in the current
facing, and a `Blocked` outcome reports exactly the collision of that
`_move_head` call. -/
lemma continue_moving_ok_shape (s s2 : Snake) (out : MoveOutcome)
    (h : s.continue_moving = Except.ok (s2, out)) :
    ∃ x y rest, s._positions = (x, y) :: rest ∧
      s2 = (s._move_head (s._direction.step (x, y))).1 ∧
      (∀ r, out = MoveOutcome.Blocked r →
        s._move_head (s._direction.step (x, y)) = (s2, some r)) := by
  rcases s with ⟨len, pos, dir⟩
  cases pos with
  | nil => rw [continue_moving_nil] at h; exact absurd h (by simp)
  | cons p rest =>
    obtain ⟨x, y⟩ := p
    rw [continue_moving_cons] at h
    refine ⟨x, y, rest, rfl, ?_⟩
    rcases hmh : (Snake.mk len ((x, y) :: rest) dir)._move_head (dir.step (x, y)) with ⟨t, oc⟩
    rw [hmh] at h
    cases oc with
    | some c =>
      simp only [Except.ok.injEq, Prod.mk.injEq] at h
      obtain ⟨h1, h2⟩ := h
      refine ⟨h1.symm, ?_⟩
      intro r hr
      rw [← h2] at hr
      injection hr with hcr
      rw [h1, hcr]
    | none =>
      simp only [Except.ok.injEq, Prod.mk.injEq] at h
      obtain ⟨h1, h2⟩ := h
      refine ⟨h1.symm, ?_⟩
      intro r hr
      rw [← h2] at hr
      exact absurd hr (by simp)

lemma move_nil (len : Nat) (dir : Direction) (d : String) :
    (Snake.mk len [] dir).move d = Except.error "list index out of range" := rfl

lemma Direction.toString_injEq (a b : Direction) (h : a.toString = b.toString) : a = b := by
  cases a <;> cases b <;> first | rfl | simp [Direction.toString] at h

lemma move_accept_shape (len : Nat) (x y : Int) (rest : List (Int × Int)) (dir2 : Direction)
    (s2 : Snake) (out : MoveOutcome)
    (h : (match (Snake.mk len ((x, y) :: rest) dir2)._move_head (dir2.step (x, y)) with
          | (t, some c) => Except.ok (t, MoveOutcome.Blocked c)
          | (t, none) => Except.ok (t, MoveOutcome.Moved t._direction (dir2.step (x, y))) :
          Except String (Snake × MoveOutcome)) =
          Except.ok (s2, out)) :
    s2 = ((Snake.mk len ((x, y) :: rest) dir2)._move_head (dir2.step (x, y))).1 ∧
      (∀ r, out = MoveOutcome.Blocked r →
        (Snake.mk len ((x, y) :: rest) dir2)._move_head (dir2.step (x, y)) = (s2, some r)) := by
  rcases hmh : (Snake.mk len ((x, y) :: rest) dir2)._move_head (dir2.step (x, y)) with ⟨t2, oc⟩
  rw [hmh] at h
  cases oc with
  | some c =>
    simp only [Except.ok.injEq, Prod.mk.injEq] at h
    obtain ⟨he1, he2⟩ := h
    refine ⟨he1.symm, ?_⟩
    intro r hr
    injection he2.trans hr with hcr
    rw [he1, hcr]
  | none =>
    simp only [Except.ok.injEq, Prod.mk.injEq] at h
    obtain ⟨he1, he2⟩ := h
    refine ⟨he1.symm, ?_⟩
    intro r hr
    exact absurd (he2.trans hr) (by simp)

/-- Successful return of `move d`: the body was nonempty and the new state
is the `_move_head` result, on the snake with some facing `dir2`, of the
head offset one cell in `dir2`; a `Blocked` outcome reports exactly that
call's collision, and when `d` is the string of a direction that is not
opposite to the old facing, `dir2` is that direction. -/
lemma move_ok_shape (s : Snake) (d : String) (s2 : Snake) (out : MoveOutcome)
    (h : s.move d = Except.ok (s2, out)) :
    ∃ (dir2 : Direction) (x y : Int) (rest : List (Int × Int)),
      s._positions = (x, y) :: rest ∧
      s2 = (({ s with _direction := dir2 } : Snake)._move_head (dir2.step (x, y))).1 ∧
      (∀ r, out = MoveOutcome.Blocked r →
        ({ s with _direction := dir2 } : Snake)._move_head (dir2.step (x, y)) = (s2, some r)) ∧
      (∀ dd : Direction, d = dd.toString → dd ≠ s._direction.opposite → dir2 = dd) := by
  rcases s with ⟨len, pos, dir⟩
  cases pos with
  | nil => rw [move_nil] at h; exact absurd h (by simp)
  | cons p rest =>
    obtain ⟨x, y⟩ := p
    simp only [Snake.move] at h
    dsimp only
    by_cases hd1 : d = "UP"
    · rw [if_pos hd1] at h
      by_cases hf : dir = Direction.DOWN
      · rw [if_neg (not_not_intro hf)] at h
        have hc : (Snake.mk len ((x, y) :: rest) dir).continue_moving = Except.ok (s2, out) := h
        obtain ⟨x2, y2, rest2, hp, hsh, hbl⟩ := continue_moving_ok_shape _ _ _ hc
        refine ⟨dir, x2, y2, rest2, hp, hsh, hbl, ?_⟩
        intro dd hdd hopp
        exfalso
        rw [hd1] at hdd
        subst hf
        cases dd <;> first | exact hopp rfl | simp [Direction.toString] at hdd
      · rw [if_pos hf] at h
        obtain ⟨hsh, hbl⟩ := move_accept_shape len x y rest Direction.UP s2 out h
        refine ⟨Direction.UP, x, y, rest, rfl, hsh, hbl, ?_⟩
        intro dd hdd hopp
        rw [hd1] at hdd
        cases dd <;> first | rfl | simp [Direction.toString] at hdd
    · rw [if_neg hd1] at h
      by_cases hd2 : d = "DOWN"
      · rw [if_pos hd2] at h
        by_cases hf : dir = Direction.UP
        · rw [if_neg (not_not_intro hf)] at h
          have hc : (Snake.mk len ((x, y) :: rest) dir).continue_moving = Except.ok (s2, out) := h
          obtain ⟨x2, y2, rest2, hp, hsh, hbl⟩ := continue_moving_ok_shape _ _ _ hc
          refine ⟨dir, x2, y2, rest2, hp, hsh, hbl, ?_⟩
          intro dd hdd hopp
          exfalso
          rw [hd2] at hdd
          subst hf
          cases dd <;> first | exact hopp rfl | simp [Direction.toString] at hdd
        · rw [if_pos hf] at h
          obtain ⟨hsh, hbl⟩ := move_accept_shape len x y rest Direction.DOWN s2 out h
          refine ⟨Direction.DOWN, x, y, rest, rfl, hsh, hbl, ?_⟩
          intro dd hdd hopp
          rw [hd2] at hdd
          cases dd <;> first | rfl | simp [Direction.toString] at hdd
      · rw [if_neg hd2] at h
        by_cases hd3 : d = "LEFT"
        · rw [if_pos hd3] at h
          by_cases hf : dir = Direction.RIGHT
          · rw [if_neg (not_not_intro hf)] at h
            have hc : (Snake.mk len ((x, y) :: rest) dir).continue_moving = Except.ok (s2, out) := h
            obtain ⟨x2, y2, rest2, hp, hsh, hbl⟩ := continue_moving_ok_shape _ _ _ hc
            refine ⟨dir, x2, y2, rest2, hp, hsh, hbl, ?_⟩
            intro dd hdd hopp
            exfalso
            rw [hd3] at hdd
            subst hf
            cases dd <;> first | exact hopp rfl | simp [Direction.toString] at hdd
          · rw [if_pos hf] at h
            obtain ⟨hsh, hbl⟩ := move_accept_shape len x y rest Direction.LEFT s2 out h
            refine ⟨Direction.LEFT, x, y, rest, rfl, hsh, hbl, ?_⟩
            intro dd hdd hopp
            rw [hd3] at hdd
            cases dd <;> first | rfl | simp [Direction.toString] at hdd
        · rw [if_neg hd3] at h
          by_cases hd4 : d = "RIGHT"
          · rw [if_pos hd4] at h
            by_cases hf : dir = Direction.LEFT
            · rw [if_neg (not_not_intro hf)] at h
              have hc : (Snake.mk len ((x, y) :: rest) dir).continue_moving = Except.ok (s2, out) := h
              obtain ⟨x2, y2, rest2, hp, hsh, hbl⟩ := continue_moving_ok_shape _ _ _ hc
              refine ⟨dir, x2, y2, rest2, hp, hsh, hbl, ?_⟩
              intro dd hdd hopp
              exfalso
              rw [hd4] at hdd
              subst hf
              cases dd <;> first | exact hopp rfl | simp [Direction.toString] at hdd
            · rw [if_pos hf] at h
              obtain ⟨hsh, hbl⟩ := move_accept_shape len x y rest Direction.RIGHT s2 out h
              refine ⟨Direction.RIGHT, x, y, rest, rfl, hsh, hbl, ?_⟩
              intro dd hdd hopp
              rw [hd4] at hdd
              cases dd <;> first | rfl | simp [Direction.toString] at hdd
          · rw [if_neg hd4] at h
            simp at h

lemma Direction.step_ne (d : Direction) (x y : Int) : d.step (x, y) ≠ (x, y) := by
  cases d <;> simp [Direction.step]

/-- `_move_head` preserves the `len(body) ≤ target_length` invariant. -/
lemma _move_head_le (s : Snake) (nh : Int × Int)
    (h : s._positions.length ≤ s._length) :
    ((s._move_head nh).1)._positions.length ≤ ((s._move_head nh).1)._length := by
  unfold Snake._move_head
  cases hc : s._check_collisions nh with
  | some c => exact h
  | none =>
    simp only []
    split
    · simp only [List.length_dropLast, List.length_cons]
      omega
    · next hgt =>
      simp only [List.length_cons] at hgt ⊢
      omega

/-- A successful `_move_head` grows the body by one cell, capped at the
target length. -/
lemma _move_head_success_length (s : Snake) (nh : Int × Int) (t : Snake)
    (hs : s._move_head nh = (t, none)) (h : s._positions.length ≤ s._length) :
    t._positions.length = min (s._positions.length + 1) s._length := by
  unfold Snake._move_head at hs
  cases hc : s._check_collisions nh with
  | some c => rw [hc] at hs; exact absurd hs (by simp)
  | none =>
    rw [hc] at hs
    simp only [Prod.mk.injEq] at hs
    rw [← hs.1]
    split
    · next hgt =>
      simp only [List.length_cons] at hgt
      simp only [List.length_dropLast, List.length_cons]
      omega
    · next hgt =>
      simp only [List.length_cons] at hgt
      simp only [List.length_cons]
      omega

/-- `_move_head` on the one-cell offset of the head preserves freedom from
duplicates: the offset candidate differs from the current head, and the
collision check has excluded the rest of the body. -/
lemma _move_head_nodup (t : Snake) (x y : Int) (rest : List (Int × Int))
    (hp : t._positions = (x, y) :: rest) (dir2 : Direction)
    (hn : t._positions.Nodup) :
    ((t._move_head (dir2.step (x, y))).1)._positions.Nodup := by
  unfold Snake._move_head
  cases hc : t._check_collisions (dir2.step (x, y)) with
  | some c => exact hn
  | none =>
    have hnm := (_check_collisions_none t _ hc).2
    rw [hp] at hnm
    simp only [List.drop_one, List.tail_cons] at hnm
    have hne := Direction.step_ne dir2 x y
    have hfull : (dir2.step (x, y) :: t._positions).Nodup := by
      rw [hp]
      refine List.nodup_cons.mpr ⟨?_, hp ▸ hn⟩
      intro hmem
      rcases List.mem_cons.mp hmem with heq | hmem2
      · exact hne heq
      · exact hnm hmem2
    simp only []
    split
    · exact (List.dropLast_sublist _).nodup hfull
    · exact hfull

/-- One operation changes the target length by exactly the number of `grow`
calls in it (one for `grow`, zero otherwise). -/
lemma apply_length (s : Snake) (op : Op) :
    (s.apply op)._length = s._length + (if op = Op.grow then 1 else 0) := by
  cases op with
  | grow => simp [Snake.apply, Snake.grow]
  | move d =>
    simp only [Snake.apply]
    cases hm : s.move d with
    | error e => simp
    | ok p =>
      obtain ⟨s2, out⟩ := p
      obtain ⟨dir2, x, y, rest, hp, hsh, _, _⟩ := move_ok_shape s d s2 out hm
      rw [hsh, _move_head_length]
      simp
  | continue_moving =>
    simp only [Snake.apply]
    cases hm : s.continue_moving with
    | error e => simp
    | ok p =>
      obtain ⟨s2, out⟩ := p
      obtain ⟨x, y, rest, hp, hsh, _⟩ := continue_moving_ok_shape s s2 out hm
      rw [hsh, _move_head_length]
      simp

/-- One operation preserves the `len(body) ≤ target_length` invariant. -/
lemma apply_le (s : Snake) (op : Op) (h : s._positions.length ≤ s._length) :
    (s.apply op)._positions.length ≤ (s.apply op)._length := by
  cases op with
  | grow =>
    simp only [Snake.apply, Snake.grow]
    omega
  | move d =>
    simp only [Snake.apply]
    cases hm : s.move d with
    | error e => exact h
    | ok p =>
      obtain ⟨s2, out⟩ := p
      obtain ⟨dir2, x, y, rest, hp, hsh, _, _⟩ := move_ok_shape s d s2 out hm
      rw [hsh]
      exact _move_head_le { s with _direction := dir2 } _ h
  | continue_moving =>
    simp only [Snake.apply]
    cases hm : s.continue_moving with
    | error e => exact h
    | ok p =>
      obtain ⟨s2, out⟩ := p
      obtain ⟨x, y, rest, hp, hsh, _⟩ := continue_moving_ok_shape s s2 out hm
      rw [hsh]
      exact _move_head_le s _ h

/-- One operation preserves freedom from duplicate body cells. -/
lemma apply_nodup (s : Snake) (op : Op) (h : s._positions.Nodup) :
    (s.apply op)._positions.Nodup := by
  cases op with
  | grow => exact h
  | move d =>
    simp only [Snake.apply]
    cases hm : s.move d with
    | error e => exact h
    | ok p =>
      obtain ⟨s2, out⟩ := p
      obtain ⟨dir2, x, y, rest, hp, hsh, _, _⟩ := move_ok_shape s d s2 out hm
      rw [hsh]
      exact _move_head_nodup { s with _direction := dir2 } x y rest hp dir2 h
  | continue_moving =>
    simp only [Snake.apply]
    cases hm : s.continue_moving with
    | error e => exact h
    | ok p =>
      obtain ⟨s2, out⟩ := p
      obtain ⟨x, y, rest, hp, hsh, _⟩ := continue_moving_ok_shape s s2 out hm
      rw [hsh]
      exact _move_head_nodup s x y rest hp s._direction h

/-- Over a run, the target length is the initial one plus the number of
`grow` calls. -/
lemma run_length (s : Snake) (ops : List Op) :
    (s.run ops)._length = s._length + num_grows ops := by
  induction ops generalizing s with
  | nil => simp [Snake.run, num_grows]
  | cons op ops ih =>
    show ((s.apply op).run ops)._length = _
    rw [ih, apply_length]
    simp only [num_grows]
    omega

/-- Over a run, the body length stays at most the target length. -/
lemma run_le (s : Snake) (ops : List Op) (h : s._positions.length ≤ s._length) :
    (s.run ops)._positions.length ≤ (s.run ops)._length := by
  induction ops generalizing s with
  | nil => exact h
  | cons op ops ih =>
    show ((s.apply op).run ops)._positions.length ≤ _
    exact ih (s.apply op) (apply_le s op h)

/-! ### Claim theorems -/

/-- C1: for every snake state, calling `move` with the direction exactly
opposite to the current facing is identical to calling `continue_moving`:
the facing is kept, the candidate head comes from the unchanged facing, and
the outcome and resulting state are the same. -/
theorem move_opposite_eq_continue_moving (s : Snake) :
    s.move s._direction.opposite.toString = s.continue_moving := by
  rcases s with ⟨len, pos, dir⟩
  cases pos with
  | nil => cases dir <;> rfl
  | cons p rest =>
    obtain ⟨x, y⟩ := p
    cases dir <;> rfl

/-- C2: a candidate head that is inside the grid and equal to some cell of
`body[1:]` makes the collision check, and hence the body update of any move
attempt, report `SNAKE_HIT` with the body left unchanged; the current tail
cell is such a cell whenever the body has at least two cells, so moving
onto it is blocked even though it would be vacated on this tick. -/
theorem self_hit_on_body (s : Snake) (nh : Int × Int)
    (hw : _wall_collision nh = false)
    (hm : nh ∈ s._positions.drop 1) :
    s._check_collisions nh = some MoveFailure.SNAKE_HIT ∧
    s._move_head nh = (s, some MoveFailure.SNAKE_HIT) := by
  have hc : s._check_collisions nh = some MoveFailure.SNAKE_HIT := by
    unfold Snake._check_collisions
    rw [if_neg (by simp [hw]), if_pos hm]
  refine ⟨hc, ?_⟩
  unfold Snake._move_head
  rw [hc]

/-- C2 witness: a three-cell snake whose candidate head is its own tail
cell is blocked with `SNAKE_HIT` and left unchanged. -/
theorem self_hit_on_body_witness :
    (Snake.init [(1, 1), (0, 1), (0, 0)])._move_head (0, 0) =
      (Snake.init [(1, 1), (0, 1), (0, 0)], some MoveFailure.SNAKE_HIT) :=
  (self_hit_on_body (Snake.init [(1, 1), (0, 1), (0, 0)]) (0, 0)
    (by decide) (by decide)).2

/-- C3: the collision check reports `WALL_HIT` exactly when
`_wall_collision` holds, regardless of the body (so the wall check takes
precedence over the self-collision check); `_wall_collision` holds exactly
off the grid `[0, GAME_WIDTH) x [0, GAME_HEIGHT)`; and it triggers exactly
at the boundary: one step left of column 0, one step right of column
`GAME_WIDTH - 1`, and the analogous rows. -/
theorem wall_hit_iff_out_of_bounds (s : Snake) (nh : Int × Int) :
    (s._check_collisions nh = some MoveFailure.WALL_HIT ↔ _wall_collision nh = true) ∧
    (_wall_collision nh = true ↔
      ¬(0 ≤ nh.1 ∧ nh.1 < GAME_WIDTH ∧ 0 ≤ nh.2 ∧ nh.2 < GAME_HEIGHT)) ∧
    (∀ y : Int, _wall_collision (0 - 1, y) = true ∧
      _wall_collision (GAME_WIDTH - 1 + 1, y) = true) ∧
    (∀ x : Int, _wall_collision (x, 0 - 1) = true ∧
      _wall_collision (x, GAME_HEIGHT - 1 + 1) = true) := by
  refine ⟨?_, ?_, ?_, ?_⟩
  · constructor
    · intro h
      by_cases hw : _wall_collision nh = true
      · exact hw
      · exfalso
        unfold Snake._check_collisions at h
        by_cases hmem : nh ∈ s._positions.drop 1
        · rw [if_neg hw, if_pos hmem] at h
          exact absurd h (by simp)
        · rw [if_neg hw, if_neg hmem] at h
          exact absurd h (by simp)
    · intro hw
      unfold Snake._check_collisions
      rw [if_pos hw]
  · unfold _wall_collision
    simp only [Bool.or_eq_true, decide_eq_true_eq, GAME_WIDTH, GAME_HEIGHT]
    omega
  · intro y
    constructor <;> simp [_wall_collision, GAME_WIDTH, GAME_HEIGHT]
  · intro x
    constructor <;> simp [_wall_collision, GAME_WIDTH, GAME_HEIGHT]

/-- C4: whenever `move` or `continue_moving` returns a `Blocked` outcome,
the body is exactly what it was before the call. -/
theorem blocked_leaves_body_unchanged (s s2 : Snake) (d : String) (r : MoveFailure)
    (h : s.move d = Except.ok (s2, MoveOutcome.Blocked r) ∨
         s.continue_moving = Except.ok (s2, MoveOutcome.Blocked r)) :
    s2._positions = s._positions := by
  rcases h with h | h
  · obtain ⟨dir2, x, y, rest, hp, hsh, hbl, _⟩ := move_ok_shape s d s2 _ h
    have hfr := _move_head_collision_frame _ _ _ _ (hbl r rfl)
    rw [hfr]
  · obtain ⟨x, y, rest, hp, hsh, hbl⟩ := continue_moving_ok_shape s s2 _ h
    have hfr := _move_head_collision_frame _ _ _ _ (hbl r rfl)
    rw [hfr]

/-- C4 witness: a snake at the right edge continuing right is blocked by the
wall and its body is unchanged. -/
theorem blocked_leaves_body_unchanged_witness :
    (Snake.init [(39, 0)])._positions = (Snake.init [(39, 0)])._positions :=
  blocked_leaves_body_unchanged (Snake.init [(39, 0)]) (Snake.init [(39, 0)])
    "UP" MoveFailure.WALL_HIT (Or.inr (by rfl))

/-- C5: growth is conservative. Starting from a constructed snake (whose
body length equals its target length), after any operation sequence with N
`grow` calls the target length is exactly the initial body length plus N,
the body length never exceeds it, and each successful body update grows the
body by exactly one cell, capped at the target length (so the body length
converges to the target after enough successful moves). -/
theorem growth_conservative (s : Snake) (ops : List Op)
    (h : s._positions.length = s._length) :
    (s.run ops)._length = s._positions.length + num_grows ops ∧
    (s.run ops)._positions.length ≤ s._positions.length + num_grows ops ∧
    (∀ (t t2 : Snake) (nh : Int × Int), t._positions.length ≤ t._length →
      t._move_head nh = (t2, none) →
      t2._positions.length = min (t._positions.length + 1) t._length) := by
  have hlen : (s.run ops)._length = s._positions.length + num_grows ops := by
    rw [run_length, h]
  refine ⟨hlen, ?_, ?_⟩
  · have hle := run_le s ops (le_of_eq h)
    rw [hlen] at hle
    exact hle
  · intro t t2 nh ht hmh
    exact _move_head_success_length t nh t2 hmh ht

/-- C5 witness: the default snake, after one grow and two successful moves,
has body length 3 = 2 + 1, within the bound. -/
theorem growth_conservative_witness :
    (Snake.default.run [Op.grow, Op.continue_moving, Op.continue_moving])._length =
        Snake.default._positions.length + num_grows [Op.grow, Op.continue_moving, Op.continue_moving] ∧
    (Snake.default.run [Op.grow, Op.continue_moving, Op.continue_moving])._positions.length ≤
        Snake.default._positions.length + num_grows [Op.grow, Op.continue_moving, Op.continue_moving] ∧
    (∀ (t t2 : Snake) (nh : Int × Int), t._positions.length ≤ t._length →
      t._move_head nh = (t2, none) →
      t2._positions.length = min (t._positions.length + 1) t._length) :=
  growth_conservative Snake.default [Op.grow, Op.continue_moving, Op.continue_moving] (by decide)

/-- C6: every operation preserves freedom from duplicate coordinates in the
body: the collision check rejects any candidate already in `body[1:]`
before insertion, and the candidate head never equals the current head
since it is offset by one cell. -/
theorem nodup_preserved (s : Snake) (op : Op) (h : s._positions.Nodup) :
    (s.apply op)._positions.Nodup :=
  apply_nodup s op h

/-- C6 witness: a coiled four-cell snake turning down keeps a
duplicate-free body. -/
theorem nodup_preserved_witness :
    ((Snake.init [(1, 1), (1, 2), (2, 2), (2, 1)]).apply (Op.move "DOWN"))._positions.Nodup :=
  nodup_preserved (Snake.init [(1, 1), (1, 2), (2, 2), (2, 1)]) (Op.move "DOWN") (by decide)

/-- C8: calling `move` with a direction value outside the four members
raises `ValueError` (is never absorbed into a `Blocked` outcome), and the
snake state is unchanged. -/
theorem move_invalid_direction_raises (s : Snake) (d : String)
    (h1 : d ≠ "UP") (h2 : d ≠ "DOWN") (h3 : d ≠ "LEFT") (h4 : d ≠ "RIGHT")
    (h5 : s._positions ≠ []) :
    s.move d = Except.error ("Invalid direction: " ++ d) ∧
    s.apply (Op.move d) = s := by
  have hm : s.move d = Except.error ("Invalid direction: " ++ d) := by
    rcases s with ⟨len, pos, dir⟩
    cases pos with
    | nil => exact absurd rfl h5
    | cons p rest =>
      obtain ⟨x, y⟩ := p
      simp only [Snake.move]
      rw [if_neg h1, if_neg h2, if_neg h3, if_neg h4]
  refine ⟨hm, ?_⟩
  simp only [Snake.apply]
  rw [hm]

/-- C8 witness: moving the default snake with the string "BANANA" raises. -/
theorem move_invalid_direction_raises_witness :
    Snake.default.move "BANANA" = Except.error ("Invalid direction: " ++ "BANANA") ∧
    Snake.default.apply (Op.move "BANANA") = Snake.default :=
  move_invalid_direction_raises Snake.default "BANANA"
    (by decide) (by decide) (by decide) (by decide) (by decide)

/-- C9: any food constructed from in-range `randint` draws has a position
inside `[0, GAME_WIDTH) x [0, GAME_HEIGHT)` (so never on a wall cell); the
draw takes no account of the snake. -/
theorem food_position_in_bounds (rx ry : Int)
    (hx : valid_randint 0 (GAME_WIDTH - 1) rx)
    (hy : valid_randint 0 (GAME_HEIGHT - 1) ry) :
    0 ≤ (Food.init rx ry).get_position.1 ∧
    (Food.init rx ry).get_position.1 < GAME_WIDTH ∧
    0 ≤ (Food.init rx ry).get_position.2 ∧
    (Food.init rx ry).get_position.2 < GAME_HEIGHT ∧
    _wall_collision ((Food.init rx ry).get_position) = false := by
  obtain ⟨hx1, hx2⟩ := hx
  obtain ⟨hy1, hy2⟩ := hy
  simp only [GAME_WIDTH, GAME_HEIGHT] at hx2 hy2
  simp only [Food.init, Food.get_position, _get_food_position, _wall_collision,
    GAME_WIDTH, GAME_HEIGHT]
  refine ⟨by omega, by omega, by omega, by omega, ?_⟩
  simp only [Bool.or_eq_false_iff, decide_eq_false_iff_not]
  omega

/-- C9 witness: the draws (3, 7) give an in-bounds food position. -/
theorem food_position_in_bounds_witness :
    0 ≤ (Food.init 3 7).get_position.1 ∧
    (Food.init 3 7).get_position.1 < GAME_WIDTH ∧
    0 ≤ (Food.init 3 7).get_position.2 ∧
    (Food.init 3 7).get_position.2 < GAME_HEIGHT ∧
    _wall_collision ((Food.init 3 7).get_position) = false :=
  food_position_in_bounds 3 7 ⟨by decide, by decide⟩ ⟨by decide, by decide⟩

/-- C10: when `move` is called with an accepted direction (not opposite to
the facing) and the move is nevertheless blocked, the facing has already
been updated to the requested direction and only the body is unchanged, so
a later `continue_moving` advances in the requested direction. -/
theorem blocked_move_updates_facing (s s2 : Snake) (d : Direction) (r : MoveFailure)
    (hacc : d ≠ s._direction.opposite)
    (h : s.move d.toString = Except.ok (s2, MoveOutcome.Blocked r)) :
    s2._direction = d ∧ s2._positions = s._positions := by
  obtain ⟨dir2, x, y, rest, hp, hsh, hbl, hdir⟩ := move_ok_shape s d.toString s2 _ h
  have hd2 : dir2 = d := hdir d rfl hacc
  have hfr := _move_head_collision_frame _ _ _ _ (hbl r rfl)
  subst hd2
  constructor
  · rw [hfr]
  · rw [hfr]

/-- C10 witness: a snake at (0, 0) facing RIGHT and asked to move UP is
blocked by the wall, yet its facing is now UP with the body unchanged. -/
theorem blocked_move_updates_facing_witness :
    (Snake.mk 1 [(0, 0)] Direction.UP)._direction = Direction.UP ∧
    (Snake.mk 1 [(0, 0)] Direction.UP)._positions = (Snake.init [(0, 0)])._positions :=
  blocked_move_updates_facing (Snake.init [(0, 0)]) (Snake.mk 1 [(0, 0)] Direction.UP)
    Direction.UP MoveFailure.WALL_HIT (by decide) (by rfl)

end SnakeLib

namespace SnakeGame

open SnakeLib

/-- C7: in a tick whose move succeeds and leaves the head on the food
position, the session grows the snake, replaces the food with a freshly
constructed one, and keeps running; the snake length reported on the next
tick is larger by exactly 1. -/
theorem tick_eat_grows_and_replaces_food (g : GameState) (input : Option String)
    (rx ry : Int) (s2 : Snake) (d : Direction) (nh : Int × Int)
    (hm : move_or_continue g.snake input = Except.ok (s2, MoveOutcome.Moved d nh))
    (heat : s2.get_head = some g.food.get_position) :
    tick g input rx ry =
      TickResult.Running { snake := s2.grow, food := Food.init rx ry } ∧
    (s2.grow)._length = s2._length + 1 := by
  constructor
  · unfold tick
    rw [hm]
    show (if s2.get_head = some g.food.get_position then
            TickResult.Running { snake := s2.grow, food := Food.init rx ry }
          else TickResult.Running { g with snake := s2 }) =
         TickResult.Running { snake := s2.grow, food := Food.init rx ry }
    rw [if_pos heat]
  · rfl

/-- C7 witness: a snake one cell left of the food moves onto it; the tick
grows it to target length 2 and places the fresh food at the new draws. -/
theorem tick_eat_grows_and_replaces_food_witness :
    tick ⟨Snake.init [(4, 5)], Food.init 5 5⟩ none 7 8 =
      TickResult.Running
        { snake := (Snake.mk 1 [(5, 5)] Direction.RIGHT).grow, food := Food.init 7 8 } ∧
    ((Snake.mk 1 [(5, 5)] Direction.RIGHT).grow)._length =
      (Snake.mk 1 [(5, 5)] Direction.RIGHT)._length + 1 :=
  tick_eat_grows_and_replaces_food ⟨Snake.init [(4, 5)], Food.init 5 5⟩ none 7 8
    (Snake.mk 1 [(5, 5)] Direction.RIGHT) Direction.RIGHT (5, 5) (by rfl) (by rfl)

end SnakeGame
